import Mathlib

/-!
Verification of the segmented-fit / tangent-intersection algorithm of the
combustion-heat data-reduction script (class `CombustionHeatDataProcessor`).

The script's pipeline (`process_data`) is: segment the temperature curve into
before-ignition / during-reaction / after-extinguish phases, pair each phase
with its 1-based sample indices, mark the two special boundary points and their
mean, least-squares-fit a polynomial to each phase (`scipy.optimize.curve_fit`),
take the exact symbolic derivative of the before/after fits at the boundary
indices (`sympy.diff`), build the two tangent lines, solve the during-fit for
the mean temperature (`sympy.solve`, first solution), and report
`(mean point, T1, T2, delta_T)`; it then plots and prints.

The two library calls whose numeric output is not reproducible in closed form
(`curve_fit`, the iterative least-squares fitter, and `solve`, the polynomial
root solver) are modelled as oracle parameters `FitOracle` / `SolveOracle`;
theorems that depend on their output take the relevant specification of that
output (e.g. "every returned solution is a root") as a hypothesis at exactly
the call site the code makes.  Everything else is translated directly.
All temperatures live in an arbitrary field `F` (`ℚ` for executable witnesses,
`ℝ`/`ℂ` where analysis is needed); Python ints that enter arithmetic are cast.
-/

namespace CombustionHeat

/-! ### Polynomial evaluation and derivative -/

/-- Source: `polynomial_fit`: the script's model function
`sum(c * x**i for i, c in enumerate(coeffs))`, written with an explicit
`enumerate` counter. -/
def polyEvalFrom {F : Type} [Semiring F] (x : F) : ℕ → List F → F
  | _, [] => 0
  | i, a :: as => a * x ^ i + polyEvalFrom x (i + 1) as

/-- Source: `polynomial_fit(self, x, *coeffs)`: value of the polynomial with coefficient
list `coeffs` (degree term `i` has coefficient `coeffs[i]`) at `x`. -/
def polynomial_fit {F : Type} [Semiring F] (coeffs : List F) (x : F) : F :=
  polyEvalFrom x 0 coeffs

/-- Helper for `polyDeriv`: multiplies the coefficient of `x^k` (for `k ≥ 1`,
after dropping the constant term) by its exponent. -/
def derivAux {F : Type} [Semiring F] : ℕ → List F → List F
  | _, [] => []
  | k, a :: as => (k : F) * a :: derivAux (k + 1) as

/-- Models `sympy.diff` applied to the polynomial expression built in
`calculate_slopes`: the exact symbolic derivative, as the coefficient
transformation `d_k = (k+1) * c_(k+1)`.  Theorem `C5_boundary_slope_exact`
proves this is the analytic derivative of `polynomial_fit`. -/
def polyDeriv {F : Type} [Semiring F] (c : List F) : List F :=
  derivAux 1 c.tail

/-- The expression passed to `solve` in `calculate_delta_T`:
`polynomial_fit(x, *coeffs_during) - point_mean[1]`, i.e. the during-phase
polynomial with its constant term lowered by the target temperature. -/
def subConst {F : Type} [Ring F] (c : List F) (t : F) : List F :=
  match c with
  | [] => [-t]
  | a :: as => (a - t) :: as

/-! ### Segmentation (`segment_data`) and point arrays (`create_point_data`) -/

/-- Source: `self.before_ignition = self.temperature_data[:7]` -/
def before_ignition {α : Type} (c : List α) : List α :=
  c.take 7

/-- Source: `self.during_reaction = self.temperature_data[7:-6]` -/
def during_reaction {α : Type} (c : List α) : List α :=
  (c.take (c.length - 6)).drop 7

/-- Source: `self.after_extinguish = self.temperature_data[-7:]` -/
def after_extinguish {α : Type} (c : List α) : List α :=
  c.drop (c.length - 7)

/-- Source: `self.point_before = np.array([range(1, 8), self.before_ignition]).T`:
1-based sample indices 1..7 paired with the before-phase samples.
(`np.array` demands the two rows have equal length; `run` checks this.) -/
def point_before {α : Type} (c : List α) : List (ℕ × α) :=
  (List.range' 1 7).zip (before_ignition c)

/-- Source: `self.point_during = np.array([range(8, len(data)-5), self.during_reaction]).T`:
indices 8..N-6 paired with the during-phase samples. -/
def point_during {α : Type} (c : List α) : List (ℕ × α) :=
  (List.range' 8 (c.length - 13)).zip (during_reaction c)

/-- Source: `self.point_after = np.array([range(len(data)-6, len(data)+1), self.after_extinguish]).T`:
indices N-6..N paired with the after-phase samples. -/
def point_after {α : Type} (c : List α) : List (ℕ × α) :=
  (List.range' (c.length - 6) 7).zip (after_extinguish c)

/-! ### Special points (`mark_special_points`) -/

/-- Temperature component of `self.point_positive7 = [7, temperature_data[6]]`. -/
def temp_positive7 {F : Type} [Semiring F] (c : List F) : F :=
  c.getD 6 0

/-- Temperature component of
`self.point_negative7 = [len(data)-6, temperature_data[-7]]`. -/
def temp_negative7 {F : Type} [Semiring F] (c : List F) : F :=
  c.getD (c.length - 7) 0

/-- Temperature component of `self.point_mean = np.mean([point_positive7,
point_negative7], axis=0)`: the arithmetic mean of the two boundary
temperatures (the target the during-fit is solved for). -/
def point_mean_temp {F : Type} [Field F] (c : List F) : F :=
  (temp_positive7 c + temp_negative7 c) / 2

/-! ### Fits, slopes, tangents -/

/-- Model of `scipy.optimize.curve_fit`: given the (index, temperature) points
of a phase and the number of polynomial coefficients (`len(p0)`), produces a
coefficient list. -/
def FitOracle (F : Type) : Type :=
  List (ℕ × F) → ℕ → List F

/-- Model of `sympy.solve(expr, x)`: given the coefficient list of a polynomial
expression, produces the list of solutions of `expr = 0` in the order the
solver emits them. -/
def SolveOracle (F : Type) : Type :=
  List F → List F

/-- Source: `self.coeffs_before` (`curve_fit` over `point_before` with `p0=[1]*4`). -/
def coeffs_before {F : Type} (fitO : FitOracle F) (c : List F) : List F :=
  fitO (point_before c) 4

/-- Source: `self.coeffs_during` (`curve_fit` over `point_during` with `p0=[1]*8`). -/
def coeffs_during {F : Type} (fitO : FitOracle F) (c : List F) : List F :=
  fitO (point_during c) 8

/-- Source: `self.coeffs_after` (`curve_fit` over `point_after` with `p0=[1]*4`). -/
def coeffs_after {F : Type} (fitO : FitOracle F) (c : List F) : List F :=
  fitO (point_after c) 4

/-- Source: `self.slope_positive7 = derivative_before.subs(x, 7)`: the exact derivative
of the before-fit polynomial, evaluated at index 7. -/
def slope_positive7 {F : Type} [Field F] (fitO : FitOracle F) (c : List F) : F :=
  polynomial_fit (polyDeriv (coeffs_before fitO c)) 7

/-- Source: `self.slope_negative7 = derivative_after.subs(x, len(data)-6)`: the exact
derivative of the after-fit polynomial, evaluated at index N-6. -/
def slope_negative7 {F : Type} [Field F] (fitO : FitOracle F) (c : List F) : F :=
  polynomial_fit (polyDeriv (coeffs_after fitO c)) ((c.length : F) - 6)

/-- Source: `self.tangent_positive7 = lambda x: slope_positive7 * (x - 7) + point_positive7[1]` -/
def tangent_positive7 {F : Type} [Field F] (slope t7 x : F) : F :=
  slope * (x - 7) + t7

/-- Source: `self.tangent_negative7 = lambda x: slope_negative7 * (x - (len(data)-6)) + point_negative7[1]` -/
def tangent_negative7 {F : Type} [Field F] (c : List F) (slope tn6 x : F) : F :=
  slope * (x - ((c.length : F) - 6)) + tn6

/-! ### The core pipeline -/

/-- The fields the script reports at the end of `calculate_delta_T`:
`point_mean[0]` (the solved midpoint index), `self.T1`, `self.T2`,
`self.delta_T`. -/
structure Result (F : Type) where
  midpointIndex : F
  T1 : F
  T2 : F
  deltaT : F
deriving DecidableEq

/-- Where the Python pipeline raises for a curve it cannot process:
`arrayShapeMismatch` — `np.array([range, samples])` in `create_point_data`
with rows of different lengths (curve shorter than 7);
`underdeterminedFit` — `curve_fit` called with fewer points than parameters;
`noRoot` — `sol[0]` raises `IndexError` because `solve` returned no solutions.
(The source has no explicit validation of its own; these are the library
errors that abort `process_data`.) -/
inductive PipelineError : Type
  | arrayShapeMismatch
  | underdeterminedFit
  | noRoot
deriving DecidableEq

/-- Did the pipeline produce a `Result`? -/
def resultProduced {F : Type} : Except PipelineError (Result F) → Bool
  | .ok _ => true
  | .error _ => false

/-- The Result-producing core of `process_data`: `segment_data`,
`create_point_data`, `mark_special_points`, `fit_data`, `calculate_slopes`,
`calculate_tangent_lines`, `calculate_delta_T` — everything up to (and
excluding) `plot_results` / `print_results`.  This is the spec's
`run(curve) -> Result`. -/
def run {F : Type} [Field F] (fitO : FitOracle F) (solveO : SolveOracle F)
    (c : List F) : Except PipelineError (Result F) :=
  -- create_point_data: np.array pairs each index row with its sample row
  if (before_ignition c).length = 7 ∧ (after_extinguish c).length = 7 then
    -- fit_data: curve_fit needs at least as many points as parameters
    if (point_before c).length < 4 ∨ (point_during c).length < 8 ∨
        (point_after c).length < 4 then
      .error .underdeterminedFit
    else
      -- calculate_delta_T: sol = solve(during_poly - point_mean[1], x); sol[0]
      match solveO (subConst (coeffs_during fitO c) (point_mean_temp c)) with
      | [] => .error .noRoot
      | m :: _ =>
        .ok { midpointIndex := m
              T1 := tangent_positive7 (slope_positive7 fitO c) (temp_positive7 c) m
              T2 := tangent_negative7 c (slope_negative7 fitO c) (temp_negative7 c) m
              deltaT :=
                tangent_negative7 c (slope_negative7 fitO c) (temp_negative7 c) m
                  - tangent_positive7 (slope_positive7 fitO c) (temp_positive7 c) m }
  else .error .arrayShapeMismatch

/-- Source: `piecewise_fit(self, x)`: three guarded branches over the fitted
coefficients; a Python function that falls through all branches returns
`None`, modelled by `Option`. -/
def piecewise_fit {F : Type} [LinearOrderedField F] (c : List F)
    (cb cd ca : List F) (x : F) : Option F :=
  if x < 8 then some (polynomial_fit cb x)
  else if 8 ≤ x ∧ x ≤ (c.length : F) - 6 then some (polynomial_fit cd x)
  else if (c.length : F) - 6 ≤ x ∧ x ≤ (c.length : F) then
    some (polynomial_fit ca x)
  else none

/-! ### Global state: rcParams, figures, console -/

/-- The process-global mutable state the script touches: matplotlib's
`rcParams`, the figure files written by `plt.savefig`, and the console output
of `print`. -/
structure GlobalState (F : Type) where
  rcParams : List (String × String)
  savedFigures : List String
  printed : List (Result F)

/-- Source: `setup_plot_config`: `rcParams.update(config)` — sets the four font keys
(modelled as prepending them, so later lookups see the new values). -/
def setup_plot_config {F : Type} (σ : GlobalState F) : GlobalState F :=
  { σ with rcParams :=
      [("font.family", "serif"), ("font.size", "12"),
       ("mathtext.fontset", "stix"), ("font.serif", "Times New Roman")]
        ++ σ.rcParams }

/-- Source: `plot_results`: renders the phases, fits, tangents and special points and
saves the figure under the archive name.  Only its file-writing effect is
relevant here. -/
def plot_results {F : Type} (arc : String) (σ : GlobalState F) : GlobalState F :=
  { σ with savedFigures := σ.savedFigures ++ [arc] }

/-- Source: `print_results`: prints the mean point, `T_1`, `T_2` and `ΔT`. -/
def print_results {F : Type} (r : Result F) (σ : GlobalState F) : GlobalState F :=
  { σ with printed := σ.printed ++ [r] }

/-- Source: `process_data`: the full method — the Result-producing core followed by
`plot_results` and `print_results` (which run only when the core finished;
a failure in the core propagates before they are reached). -/
def process_data {F : Type} [Field F] (fitO : FitOracle F)
    (solveO : SolveOracle F) (arc : String) (c : List F) (σ : GlobalState F) :
    GlobalState F × Except PipelineError (Result F) :=
  match run fitO solveO c with
  | .ok r => (print_results r (plot_results arc σ), .ok r)
  | .error e => (σ, .error e)

/-- Source: `CombustionHeatDataProcessor.__init__`: applies `setup_plot_config`, then
runs `process_data`. -/
def processor_new {F : Type} [Field F] (fitO : FitOracle F)
    (solveO : SolveOracle F) (arc : String) (c : List F) (σ : GlobalState F) :
    GlobalState F × Except PipelineError (Result F) :=
  process_data fitO solveO arc c (setup_plot_config σ)

/-! ### Concrete instances used by witnesses and counterexamples -/

/-- A flat 21-sample curve (all temperatures 20 °C). -/
def c21w : List ℚ := List.replicate 21 20

/-- A flat 15-sample curve. -/
def c15w : List ℚ := List.replicate 15 20

/-- A flat 14-sample curve (one sample short of the spec's minimum). -/
def c14w : List ℚ := List.replicate 14 20

/-- Fit oracle returning the constant polynomial 20 — the exact least-squares
fit of any phase of a flat-20 curve. -/
def fitConstW : FitOracle ℚ := fun _ k => 20 :: List.replicate (k - 1) 0

/-- Solve oracle returning the single solution 9. -/
def solve9W : SolveOracle ℚ := fun _ => [9]

/-- Solve oracle returning no solutions. -/
def solveEmptyW : SolveOracle ℚ := fun _ => []

/-- The Result the pipeline produces on `c21w` with the oracles above. -/
def rW : Result ℚ := { midpointIndex := 9, T1 := 20, T2 := 20, deltaT := 0 }

/-- A flat 21-sample curve over `ℂ` (for the root-realness counterexample). -/
def curveC4 : List ℂ := List.replicate 21 20

/-- Fit oracle whose during-fit is `x² + 21`, with constant before/after fits:
its midpoint equation `x² + 21 = 20` has no real solution. -/
def fitC4 : FitOracle ℂ :=
  fun _ k => if k = 8 then [21, 0, 1, 0, 0, 0, 0, 0] else [20, 0, 0, 0]

/-- Solve oracle returning the genuine (purely imaginary) root `I` of
`x² + 1 = 0` — as `sympy.solve` does for an equation with only complex
solutions. -/
def solveC4 : SolveOracle ℂ := fun _ => [Complex.I]

/-- Example coefficient lists for the `piecewise_fit` claims. -/
def cbW : List ℚ := [1]

/-- During-fit coefficients for the `piecewise_fit` claims. -/
def cdW : List ℚ := [2]

/-- After-fit coefficients for the `piecewise_fit` claims (differing from
`cdW`, so the branch choice at the boundary is observable). -/
def caW : List ℚ := [3]

/-- Archive name used in witness runs. -/
def arcW : String := "curve"

/-- Empty global state used in witness runs. -/
def sigma0 : GlobalState ℚ := { rcParams := [], savedFigures := [], printed := [] }

/-! ### Polynomial evaluation lemmas -/

lemma polyEvalFrom_succ {F : Type} [CommSemiring F] (x : F) :
    ∀ (cs : List F) (i : ℕ), polyEvalFrom x (i + 1) cs = x * polyEvalFrom x i cs
  | [], _ => by simp [polyEvalFrom]
  | a :: as, i => by
    simp only [polyEvalFrom, polyEvalFrom_succ x as (i + 1), pow_succ]
    ring

lemma polynomial_fit_nil {F : Type} [CommSemiring F] (x : F) :
    polynomial_fit ([] : List F) x = 0 := rfl

lemma polynomial_fit_cons {F : Type} [CommSemiring F] (a : F) (cs : List F) (x : F) :
    polynomial_fit (a :: cs) x = a + x * polynomial_fit cs x := by
  simp [polynomial_fit, polyEvalFrom, polyEvalFrom_succ]

lemma subConst_eval {F : Type} [CommRing F] (c : List F) (t x : F) :
    polynomial_fit (subConst c t) x = polynomial_fit c x - t := by
  cases c with
  | nil => simp [subConst, polynomial_fit_cons, polynomial_fit_nil]
  | cons a as => simp only [subConst, polynomial_fit_cons]; ring

lemma derivAux_succ_eval {F : Type} [CommSemiring F] (x : F) :
    ∀ (cs : List F) (k : ℕ),
      polynomial_fit (derivAux (k + 1) cs) x
        = polynomial_fit cs x + polynomial_fit (derivAux k cs) x
  | [], _ => by simp [derivAux, polynomial_fit_nil]
  | a :: as, k => by
    simp only [derivAux, polynomial_fit_cons, derivAux_succ_eval x as (k + 1)]
    push_cast
    ring

lemma polyDeriv_cons_eval {F : Type} [CommSemiring F] (b : F) (cs : List F) (a : F) :
    polynomial_fit (polyDeriv (b :: cs)) a
      = polynomial_fit cs a + a * polynomial_fit (polyDeriv cs) a := by
  cases cs with
  | nil => simp [polyDeriv, derivAux, polynomial_fit_nil]
  | cons c1 cs' =>
    simp only [polyDeriv, List.tail_cons, derivAux, polynomial_fit_cons,
      derivAux_succ_eval, Nat.cast_one]
    ring

/-- The coefficient-transformation `polyDeriv` is the analytic derivative of
`polynomial_fit` — the exactness property of the symbolic differentiation in
`calculate_slopes`. -/
lemma polyfit_hasDerivAt : ∀ (c : List ℝ) (a : ℝ),
    HasDerivAt (fun x => polynomial_fit c x) (polynomial_fit (polyDeriv c) a) a
  | [], a => by
    have h : (fun x : ℝ => polynomial_fit ([] : List ℝ) x) = fun _ => (0 : ℝ) := rfl
    rw [h]
    have h2 : polynomial_fit (polyDeriv ([] : List ℝ)) a = 0 := by
      simp [polyDeriv, derivAux, polynomial_fit_nil]
    rw [h2]
    exact hasDerivAt_const a 0
  | b :: cs, a => by
    have ih := polyfit_hasDerivAt cs a
    have h2 := ((hasDerivAt_id a).mul ih).const_add b
    have hfun : (fun x : ℝ => polynomial_fit (b :: cs) x)
        = fun x : ℝ => b + x * polynomial_fit cs x := by
      funext x; exact polynomial_fit_cons b cs x
    rw [hfun, polyDeriv_cons_eval]
    convert h2 using 1
    simp only [id_eq]
    ring

/-! ### Segment and point-array lengths -/

lemma before_ignition_length {α : Type} (c : List α) (h : 7 ≤ c.length) :
    (before_ignition c).length = 7 := by
  simp [before_ignition]
  omega

lemma during_reaction_length {α : Type} (c : List α) :
    (during_reaction c).length = c.length - 13 := by
  simp [during_reaction]
  omega

lemma after_extinguish_length {α : Type} (c : List α) (h : 7 ≤ c.length) :
    (after_extinguish c).length = 7 := by
  simp [after_extinguish]
  omega

lemma point_before_length {α : Type} (c : List α) (h : 7 ≤ c.length) :
    (point_before c).length = 7 := by
  simp [point_before, before_ignition_length c h]

lemma point_during_length {α : Type} (c : List α) :
    (point_during c).length = c.length - 13 := by
  simp [point_during, during_reaction_length c]

lemma point_after_length {α : Type} (c : List α) (h : 7 ≤ c.length) :
    (point_after c).length = 7 := by
  simp [point_after, after_extinguish_length c h]

/-! ### Inversion of a successful run -/

lemma run_ok_inv {F : Type} [Field F] {fitO : FitOracle F} {solveO : SolveOracle F}
    {c : List F} {r : Result F} (hr : run fitO solveO c = .ok r) :
    (solveO (subConst (coeffs_during fitO c) (point_mean_temp c))).head?
        = some r.midpointIndex
    ∧ r.T1 = tangent_positive7 (slope_positive7 fitO c) (temp_positive7 c) r.midpointIndex
    ∧ r.T2 = tangent_negative7 c (slope_negative7 fitO c) (temp_negative7 c) r.midpointIndex
    ∧ r.deltaT = r.T2 - r.T1 := by
  unfold run at hr
  split at hr
  · split at hr
    · exact absurd hr (by simp)
    · split at hr
      · exact absurd hr (by simp)
      · next m rest heq =>
        rw [Except.ok.injEq] at hr
        subst hr
        exact ⟨by rw [heq]; rfl, rfl, rfl, rfl⟩
  · exact absurd hr (by simp)

/-- With at least 21 samples every `np.array` / `curve_fit` precondition holds,
and when the solver returns no solution `sol[0]` raises. -/
lemma run_eq_noRoot {F : Type} [Field F] (fitO : FitOracle F) (solveO : SolveOracle F)
    (c : List F) (h21 : 21 ≤ c.length)
    (hs : solveO (subConst (coeffs_during fitO c) (point_mean_temp c)) = []) :
    run fitO solveO c = .error .noRoot := by
  unfold run
  rw [if_pos ⟨before_ignition_length c (by omega), after_extinguish_length c (by omega)⟩,
    if_neg, hs]
  rw [point_before_length c (by omega), point_during_length c,
    point_after_length c (by omega)]
  omega

/-! ### Index structure of the zipped point arrays -/

lemma zip_range'_getElem? {α : Type} (a k : ℕ) (l : List α) (hl : l.length = k)
    (j : ℕ) (hj : j < k) :
    ∃ t, l[j]? = some t ∧ ((List.range' a k).zip l)[j]? = some (a + j, t) := by
  have hj' : j < l.length := by omega
  refine ⟨l[j], List.getElem?_eq_getElem hj', ?_⟩
  rw [List.getElem?_zip_eq_some]
  exact ⟨by simp [List.getElem?_range', hj], List.getElem?_eq_getElem hj'⟩

lemma mem_zip_range' {α : Type} {l : List α} {a k : ℕ} (_hl : l.length = k)
    {p : ℕ × α} (hp : p ∈ (List.range' a k).zip l) :
    ∃ j, j < k ∧ p.1 = a + j ∧ l[j]? = some p.2 := by
  obtain ⟨j, hj⟩ := List.mem_iff_getElem?.mp hp
  rw [List.getElem?_zip_eq_some] at hj
  obtain ⟨hj1, hj2⟩ := hj
  have hjk : j < k := by
    by_contra hge
    rw [List.getElem?_eq_none (by simp; omega)] at hj1
    exact Option.noConfusion hj1
  refine ⟨j, hjk, ?_, hj2⟩
  simp [List.getElem?_range', hjk] at hj1
  omega

lemma during_reaction_getElem? {α : Type} (curve : List α) (j : ℕ)
    (hj : 7 + j < curve.length - 6) :
    (during_reaction curve)[j]? = curve[7 + j]? := by
  unfold during_reaction
  rw [List.getElem?_drop, List.getElem?_take_of_lt hj]

lemma after_extinguish_getElem? {α : Type} (curve : List α) (j : ℕ) :
    (after_extinguish curve)[j]? = curve[curve.length - 7 + j]? := by
  unfold after_extinguish
  rw [List.getElem?_drop]

lemma before_ignition_getElem? {α : Type} (curve : List α) (j : ℕ) (hj : j < 7) :
    (before_ignition curve)[j]? = curve[j]? := by
  unfold before_ignition
  rw [List.getElem?_take_of_lt hj]

/-- C2: for every curve of length N ≥ 15, the segmentation pairs Before with
1-based indices 1..7, During with 8..N-6, After with N-6..N; each paired index
`i` carries sample `curve[i-1]` (1-based indexing of the original curve); and
the last During point coincides with the first After point (the shared sample
at index N-6). -/
theorem C2_segmentation {α : Type} (curve : List α) (h : 15 ≤ curve.length) :
    (point_before curve).map Prod.fst = List.range' 1 7
    ∧ (point_during curve).map Prod.fst = List.range' 8 (curve.length - 13)
    ∧ (point_after curve).map Prod.fst = List.range' (curve.length - 6) 7
    ∧ (∀ p ∈ point_before curve ++ point_during curve ++ point_after curve,
        curve[p.1 - 1]? = some p.2)
    ∧ (point_during curve).getLast? = (point_after curve).head? := by
  have h7 : 7 ≤ curve.length := by omega
  refine ⟨?_, ?_, ?_, ?_, ?_⟩
  · exact List.map_fst_zip _ _
      (by rw [before_ignition_length curve h7]; simp)
  · exact List.map_fst_zip _ _
      (by rw [during_reaction_length curve]; simp)
  · exact List.map_fst_zip _ _
      (by rw [after_extinguish_length curve h7]; simp)
  · intro p hp
    rcases List.mem_append.mp hp with hp' | hpa
    · rcases List.mem_append.mp hp' with hpb | hpd
      · obtain ⟨j, hj7, hfst, hsnd⟩ :=
          mem_zip_range' (before_ignition_length curve h7) hpb
        rw [before_ignition_getElem? curve j hj7] at hsnd
        have hidx : p.1 - 1 = j := by omega
        rw [hidx]; exact hsnd
      · obtain ⟨j, hjk, hfst, hsnd⟩ :=
          mem_zip_range' (during_reaction_length curve) hpd
        rw [during_reaction_getElem? curve j (by omega)] at hsnd
        have hidx : p.1 - 1 = 7 + j := by omega
        rw [hidx]; exact hsnd
    · obtain ⟨j, hj7, hfst, hsnd⟩ :=
        mem_zip_range' (after_extinguish_length curve h7) hpa
      rw [after_extinguish_getElem? curve j] at hsnd
      have hidx : p.1 - 1 = curve.length - 7 + j := by omega
      rw [hidx]; exact hsnd
  · obtain ⟨t, hts, htz⟩ := zip_range'_getElem? 8 (curve.length - 13)
      (during_reaction curve) (during_reaction_length curve)
      (curve.length - 14) (by omega)
    obtain ⟨t2, hts2, htz2⟩ := zip_range'_getElem? (curve.length - 6) 7
      (after_extinguish curve) (after_extinguish_length curve h7) 0 (by omega)
    have hteq : t = t2 := by
      rw [during_reaction_getElem? curve _ (by omega)] at hts
      rw [after_extinguish_getElem? curve 0] at hts2
      have hidx : 7 + (curve.length - 14) = curve.length - 7 + 0 := by omega
      rw [hidx] at hts
      rw [hts] at hts2
      exact Option.some_inj.mp hts2
    have hlast : (point_during curve).getLast?
        = (point_during curve)[curve.length - 14]? := by
      rw [List.getLast?_eq_getElem?, point_during_length curve]
      have hidx2 : curve.length - 13 - 1 = curve.length - 14 := by omega
      rw [hidx2]
    rw [hlast, List.head?_eq_getElem?]
    unfold point_during point_after
    rw [htz, htz2]
    rw [Option.some.injEq, Prod.mk.injEq]
    exact ⟨by omega, hteq⟩

/-- C1: whenever `run` accepts a curve, the returned Result satisfies the
defining equations: the midpoint index solves
`during-fit(x) = targetTemperature` (the mean of the temperatures at samples 7
and N-6), `T1`/`T2` are the Before/After tangent lines evaluated there, and
`deltaT = T2 - T1`.  The hypothesis is the specification of the root solver at
the one call the code makes: every solution it returns is a genuine root. -/
theorem C1_result_equations {F : Type} [Field F] (fitO : FitOracle F)
    (solveO : SolveOracle F) (curve : List F)
    (Hs : ∀ x ∈ solveO (subConst (coeffs_during fitO curve) (point_mean_temp curve)),
      polynomial_fit (subConst (coeffs_during fitO curve) (point_mean_temp curve)) x = 0)
    (r : Result F) (hr : run fitO solveO curve = .ok r) :
    polynomial_fit (coeffs_during fitO curve) r.midpointIndex = point_mean_temp curve
    ∧ r.T1 = tangent_positive7 (slope_positive7 fitO curve) (temp_positive7 curve)
        r.midpointIndex
    ∧ r.T2 = tangent_negative7 curve (slope_negative7 fitO curve) (temp_negative7 curve)
        r.midpointIndex
    ∧ r.deltaT = r.T2 - r.T1 := by
  obtain ⟨hh, h1, h2, h3⟩ := run_ok_inv hr
  refine ⟨?_, h1, h2, h3⟩
  have hmem : r.midpointIndex
      ∈ solveO (subConst (coeffs_during fitO curve) (point_mean_temp curve)) := by
    cases hsol : solveO (subConst (coeffs_during fitO curve) (point_mean_temp curve)) with
    | nil => rw [hsol] at hh; exact absurd hh (by simp)
    | cons m rest =>
      rw [hsol] at hh
      simp only [List.head?_cons, Option.some.injEq] at hh
      rw [← hh]
      exact List.mem_cons_self m rest
  have hroot := Hs _ hmem
  rwa [subConst_eval, sub_eq_zero] at hroot

/-- C3 counterexample: on a 14-sample curve (shorter than the required 15),
`segment_data` does NOT fail — it yields the full Before/During/After
decomposition — and the pipeline aborts only later, inside `fit_data`, because
the During phase offers 1 point to an 8-parameter fit.  There is no
`InsufficientSamples` rejection anywhere. -/
theorem C3_counterexample :
    before_ignition c14w = List.replicate 7 (20 : ℚ)
    ∧ during_reaction c14w = [(20 : ℚ)]
    ∧ after_extinguish c14w = List.replicate 7 (20 : ℚ)
    ∧ run fitConstW solve9W c14w = .error .underdeterminedFit := by
  refine ⟨rfl, rfl, rfl, ?_⟩
  rfl

/-- C3 (amended): for every curve shorter than 15 samples, `run` produces no
Result — it aborts with a library error (`np.array` row mismatch below 7
samples, otherwise the underdetermined during-fit) — but segmentation itself
is total and the code has no `InsufficientSamples` check. -/
theorem C3_short_curve_no_result {F : Type} [Field F] (fitO : FitOracle F)
    (solveO : SolveOracle F) (curve : List F) (h : curve.length < 15) :
    resultProduced (run fitO solveO curve) = false := by
  by_cases h7 : 7 ≤ curve.length
  · unfold run
    rw [if_pos ⟨before_ignition_length curve h7, after_extinguish_length curve h7⟩,
      if_pos]
    · rfl
    · refine Or.inr (Or.inl ?_)
      rw [point_during_length curve]
      omega
  · unfold run
    rw [if_neg]
    · rfl
    · rintro ⟨hb, _⟩
      rw [before_ignition] at hb
      simp at hb
      omega

/-- C4 counterexample: a during-fit whose midpoint equation `x² + 21 = 20` has
no real solution.  The modelled solver returns its genuine first root `I` (as
`sympy.solve` returns complex roots), and `run` happily produces a Result with
a non-real midpoint index instead of failing with a `NoRealRoot` error — the
code takes `sol[0]` with no realness filtering. -/
theorem C4_counterexample :
    (∀ x : ℝ, polynomial_fit (subConst (coeffs_during fitC4 curveC4)
        (point_mean_temp curveC4)) (x : ℂ) ≠ 0)
    ∧ (∀ x ∈ solveC4 (subConst (coeffs_during fitC4 curveC4) (point_mean_temp curveC4)),
        polynomial_fit (subConst (coeffs_during fitC4 curveC4)
          (point_mean_temp curveC4)) x = 0)
    ∧ resultProduced (run fitC4 solveC4 curveC4) = true := by
  have hkey : subConst (coeffs_during fitC4 curveC4) (point_mean_temp curveC4)
      = [1, 0, 1, 0, 0, 0, 0, 0] := by
    simp [subConst, coeffs_during, fitC4, point_mean_temp, temp_positive7,
      temp_negative7, curveC4, List.getD]
    norm_num
  refine ⟨?_, ?_, rfl⟩
  · intro x
    rw [hkey]
    simp only [polynomial_fit, polyEvalFrom]
    intro hcon
    have hre : (x : ℝ) ^ 2 + 1 = 0 := by
      have : ((x ^ 2 + 1 : ℝ) : ℂ) = 0 := by push_cast; linear_combination hcon
      exact_mod_cast this
    nlinarith [sq_nonneg x]
  · intro x hx
    simp only [solveC4, List.mem_singleton] at hx
    subst hx
    rw [hkey]
    simp only [polynomial_fit, polyEvalFrom]
    have hI : (Complex.I : ℂ) ^ 2 = -1 := Complex.I_sq
    linear_combination hI

/-- C4 (amended): `solveMidpointIndex` takes the first solution the solver
produces for `duringFit(x) - targetTemperature = 0`, with no filtering for
realness, and the pipeline fails (an `IndexError` on `sol[0]`) exactly when
the solver returns no solutions at all — not when no real solution exists. -/
theorem C4_first_solution_unfiltered {F : Type} [Field F] (fitO : FitOracle F)
    (solveO : SolveOracle F) (curve : List F) (h21 : 21 ≤ curve.length) :
    (solveO (subConst (coeffs_during fitO curve) (point_mean_temp curve)) = [] →
      run fitO solveO curve = .error .noRoot)
    ∧ ∀ r, run fitO solveO curve = .ok r →
        (solveO (subConst (coeffs_during fitO curve) (point_mean_temp curve))).head?
          = some r.midpointIndex :=
  ⟨run_eq_noRoot fitO solveO curve h21, fun _ hr => (run_ok_inv hr).1⟩

/-- C5: the boundary slopes are the exact analytic derivatives of the fitted
polynomials — `slope_positive7` (used by `run` for `T1`) is the derivative of
the Before fit at index 7, and `slope_negative7` (used for `T2`) is the
derivative of the After fit at index N-6.  No finite differencing occurs:
the coefficient transformation `polyDeriv` (the model of `sympy.diff`)
satisfies `HasDerivAt` exactly. -/
theorem C5_boundary_slope_exact (curve : List ℝ) (fitO : FitOracle ℝ) :
    HasDerivAt (fun x => polynomial_fit (coeffs_before fitO curve) x)
      (slope_positive7 fitO curve) 7
    ∧ HasDerivAt (fun x => polynomial_fit (coeffs_after fitO curve) x)
      (slope_negative7 fitO curve) ((curve.length : ℝ) - 6) :=
  ⟨polyfit_hasDerivAt _ 7, polyfit_hasDerivAt _ _⟩

/-- C6: on a curve of identical temperatures (with the exact least-squares
fits of that flat data, the constant polynomials), any Result `run` returns
has `deltaT = 0` — both tangents are horizontal lines at the common
temperature. -/
theorem C6_flat_curve_deltaT_zero {F : Type} [Field F] (fitO : FitOracle F)
    (solveO : SolveOracle F) (n : ℕ) (T : F) (curve : List F)
    (hc : curve = List.replicate n T) (hn : 7 ≤ n)
    (hb : coeffs_before fitO curve = [T, 0, 0, 0])
    (ha : coeffs_after fitO curve = [T, 0, 0, 0])
    (r : Result F) (hr : run fitO solveO curve = .ok r) :
    r.deltaT = 0 ∧ r.T1 = T ∧ r.T2 = T := by
  obtain ⟨_, h1, h2, h3⟩ := run_ok_inv hr
  have hslopeb : slope_positive7 fitO curve = 0 := by
    rw [slope_positive7, hb]
    simp [polyDeriv, derivAux, polynomial_fit, polyEvalFrom]
  have hslopea : slope_negative7 fitO curve = 0 := by
    rw [slope_negative7, ha]
    simp [polyDeriv, derivAux, polynomial_fit, polyEvalFrom]
  have ht7 : temp_positive7 curve = T := by
    rw [hc]
    simp [temp_positive7, List.getD, List.getElem?_replicate, show 6 < n by omega]
  have htn : temp_negative7 curve = T := by
    rw [hc]
    simp [temp_negative7, List.getD, List.getElem?_replicate, show n - 7 < n by omega]
  have h1' : r.T1 = T := by
    rw [h1, hslopeb, ht7]
    simp [tangent_positive7]
  have h2' : r.T2 = T := by
    rw [h2, hslopea, htn]
    simp [tangent_negative7]
  exact ⟨by rw [h3, h1', h2', sub_self], h1', h2'⟩

/-- The Result component of the full stateful `process_data` is exactly the
pure core computation, for every incoming global state. -/
lemma process_data_snd {F : Type} [Field F] (fitO : FitOracle F)
    (solveO : SolveOracle F) (arc : String) (curve : List F) (σ : GlobalState F) :
    (process_data fitO solveO arc curve σ).2 = run fitO solveO curve := by
  unfold process_data
  cases hrun : run fitO solveO curve <;> simp [hrun]

/-- Same for the whole `__init__` (which first mutates `rcParams` via
`setup_plot_config`). -/
lemma processor_new_snd {F : Type} [Field F] (fitO : FitOracle F)
    (solveO : SolveOracle F) (arc : String) (curve : List F) (σ : GlobalState F) :
    (processor_new fitO solveO arc curve σ).2 = run fitO solveO curve :=
  process_data_snd fitO solveO arc curve (setup_plot_config σ)

/-- C7: computing the Result has no side effects beyond producing it — the
Result component of the full pipeline (rcParams setup, core computation,
plotting, printing) equals the pure, state-free `run` for EVERY initial
global state: the core neither reads the global plotting state (the result is
independent of σ) nor is it altered by the plotting/printing collaborators
(which only extend the state component). -/
theorem C7_core_no_side_effects {F : Type} [Field F] (fitO : FitOracle F)
    (solveO : SolveOracle F) (arc : String) (curve : List F) :
    ∀ σ : GlobalState F,
      (processor_new fitO solveO arc curve σ).2 = run fitO solveO curve :=
  fun σ => processor_new_snd fitO solveO arc curve σ

/-- C8: re-running the processor on the same curve — from the global state the
first invocation left behind — produces a bit-identical Result. -/
theorem C8_deterministic_rerun {F : Type} [Field F] (fitO : FitOracle F)
    (solveO : SolveOracle F) (arc : String) (curve : List F) (σ : GlobalState F) :
    (processor_new fitO solveO arc curve
        ((processor_new fitO solveO arc curve σ).1)).2
      = (processor_new fitO solveO arc curve σ).2 := by
  rw [processor_new_snd, processor_new_snd]

/-- C9: `piecewise_fit` is a partial function — on a processed curve (N ≥ 15)
it returns a fitted value for every `x ≤ N` but falls through all three
branches and returns `None` for every `x > N`, including the endpoint `N + 1`
the plotting grid `np.linspace(1, N+1, 1000)` evaluates it on. -/
theorem C9_piecewise_domain {F : Type} [LinearOrderedField F]
    (curve cb cd ca : List F) (h : 15 ≤ curve.length) :
    (∀ x : F, x ≤ (curve.length : F) →
      (piecewise_fit curve cb cd ca x).isSome = true)
    ∧ (∀ x : F, (curve.length : F) < x → piecewise_fit curve cb cd ca x = none)
    ∧ piecewise_fit curve cb cd ca ((curve.length : F) + 1) = none := by
  have hcast : (15 : F) ≤ (curve.length : F) := by exact_mod_cast h
  have hnone : ∀ x : F, (curve.length : F) < x →
      piecewise_fit curve cb cd ca x = none := by
    intro x hx
    unfold piecewise_fit
    rw [if_neg (by push_neg; linarith), if_neg, if_neg]
    · rintro ⟨_, hle⟩; linarith
    · rintro ⟨_, hle⟩; linarith
  refine ⟨?_, hnone, hnone _ (by linarith)⟩
  intro x hx
  unfold piecewise_fit
  split_ifs with h1 h2 h3
  · rfl
  · rfl
  · rfl
  · exfalso
    push_neg at h1 h2 h3
    have h8 : 8 ≤ x := h1
    have := h2 h8
    have := h3 (by linarith)
    linarith

/-- C10: at the shared boundary index `x = N-6` — inside both the During range
`[8, N-6]` and the After range `[N-6, N]` — `piecewise_fit` returns the
During-fit value: the During branch is tested first. -/
theorem C10_boundary_takes_during {F : Type} [LinearOrderedField F]
    (curve cb cd ca : List F) (h : 14 ≤ curve.length) :
    piecewise_fit curve cb cd ca ((curve.length : F) - 6)
      = some (polynomial_fit cd ((curve.length : F) - 6)) := by
  have hcast : (14 : F) ≤ (curve.length : F) := by exact_mod_cast h
  unfold piecewise_fit
  rw [if_neg (by push_neg; linarith), if_pos ⟨by linarith, le_refl _⟩]

/-! ### Zero-residual fits of flat data -/

lemma polynomial_fit_zeros {F : Type} [CommSemiring F] (x : F) :
    ∀ m : ℕ, polynomial_fit (List.replicate m (0 : F)) x = 0
  | 0 => rfl
  | m + 1 => by
    rw [List.replicate_succ, polynomial_fit_cons, polynomial_fit_zeros x m]
    ring

lemma polynomial_fit_const {F : Type} [CommSemiring F] (T x : F) (m : ℕ) :
    polynomial_fit (T :: List.replicate m 0) x = T := by
  rw [polynomial_fit_cons, polynomial_fit_zeros]
  ring

/-- On a flat curve every phase point carries the common temperature, so the
constant coefficient vector `T :: 0...0` reproduces every data point exactly:
it is a zero-residual — hence least-squares-optimal — fit.  This is what
justifies handing `run` a fit oracle that returns the constant vectors in the
flat-curve claim (C6). -/
lemma flat_fit_zero_residual {F : Type} [Field F] (n m : ℕ) (T : F) :
    ∀ p ∈ point_before (List.replicate n T) ++ point_during (List.replicate n T)
        ++ point_after (List.replicate n T),
      polynomial_fit (T :: List.replicate m 0) ((p.1 : ℕ) : F) = p.2 := by
  intro p hp
  rw [polynomial_fit_const]
  have hsnd : p.2 ∈ List.replicate n T := by
    rcases List.mem_append.mp hp with hp' | hpa
    · rcases List.mem_append.mp hp' with hpb | hpd
      · have := (List.of_mem_zip hpb).2
        unfold before_ignition at this
        exact List.mem_of_mem_take this
      · have := (List.of_mem_zip hpd).2
        unfold during_reaction at this
        exact List.mem_of_mem_take (List.mem_of_mem_drop this)
    · have := (List.of_mem_zip hpa).2
      unfold after_extinguish at this
      exact List.mem_of_mem_drop this
  exact (List.eq_of_mem_replicate hsnd).symm

/-! ### Concrete evaluations for witnesses -/

lemma key_c21w : subConst (coeffs_during fitConstW c21w) (point_mean_temp c21w)
    = 0 :: List.replicate 7 (0 : ℚ) := by
  simp [subConst, coeffs_during, fitConstW, point_mean_temp, temp_positive7,
    temp_negative7, c21w, List.getD, List.getElem?_replicate]

lemma run_c21w : run fitConstW solve9W c21w = .ok rW := by
  unfold run
  rw [if_pos ⟨rfl, rfl⟩, if_neg (by decide)]
  simp only [solve9W]
  rw [Except.ok.injEq]
  unfold rW
  rw [Result.mk.injEq]
  refine ⟨rfl, ?_, ?_, ?_⟩ <;>
    norm_num [tangent_positive7, tangent_negative7, slope_positive7,
      slope_negative7, coeffs_before, coeffs_after, fitConstW, c21w,
      temp_positive7, temp_negative7, polyDeriv, derivAux, polynomial_fit,
      polyEvalFrom, List.getD, List.getElem?_replicate, List.replicate_succ]

/-- Witness for C1 at the flat 21-sample curve: the Result `(9, 20, 20, 0)`
satisfies all four equations. -/
theorem C1_witness :
    polynomial_fit (coeffs_during fitConstW c21w) rW.midpointIndex
        = point_mean_temp c21w
    ∧ rW.T1 = tangent_positive7 (slope_positive7 fitConstW c21w)
        (temp_positive7 c21w) rW.midpointIndex
    ∧ rW.T2 = tangent_negative7 c21w (slope_negative7 fitConstW c21w)
        (temp_negative7 c21w) rW.midpointIndex
    ∧ rW.deltaT = rW.T2 - rW.T1 :=
  C1_result_equations fitConstW solve9W c21w
    (by
      intro x hx
      simp only [solve9W, List.mem_singleton] at hx
      subst hx
      rw [key_c21w]
      norm_num [polynomial_fit, polyEvalFrom, List.replicate_succ])
    rW run_c21w

/-- Witness for C2 at a 15-sample curve: Before = indices 1..7,
During = 8..9, After = 9..15, with the shared point at index 9. -/
theorem C2_witness :
    (point_before c15w).map Prod.fst = [1, 2, 3, 4, 5, 6, 7]
    ∧ (point_during c15w).map Prod.fst = [8, 9]
    ∧ (point_after c15w).map Prod.fst = [9, 10, 11, 12, 13, 14, 15]
    ∧ (point_during c15w).getLast? = (point_after c15w).head? := by
  have h := C2_segmentation c15w (by norm_num [c15w])
  exact ⟨by rw [h.1]; rfl, by rw [h.2.1]; rfl, by rw [h.2.2.1]; rfl,
    h.2.2.2.2⟩

/-- Witness for C3 (amended) at the 14-sample curve: no Result. -/
theorem C3_witness : resultProduced (run fitConstW solve9W c14w) = false :=
  C3_short_curve_no_result fitConstW solve9W c14w (by norm_num [c14w])

/-- Witness for C4 (amended): with a solver that returns no solutions, the
pipeline fails at `sol[0]`. -/
theorem C4_witness : run fitConstW solveEmptyW c21w = .error .noRoot :=
  (C4_first_solution_unfiltered fitConstW solveEmptyW c21w
    (by norm_num [c21w])).1 rfl

/-- Witness for C6 at the flat 21-sample curve: `deltaT = 0` and both tangent
values equal the common temperature 20. -/
theorem C6_witness : rW.deltaT = 0 ∧ rW.T1 = 20 ∧ rW.T2 = 20 :=
  C6_flat_curve_deltaT_zero fitConstW solve9W 21 20 c21w rfl (by norm_num)
    rfl rfl rW run_c21w

/-- Witness for C9 at a 15-sample curve: a value inside the domain is fitted,
16 (> N) falls through. -/
theorem C9_witness :
    (piecewise_fit c15w cbW cdW caW 10).isSome = true
    ∧ piecewise_fit c15w cbW cdW caW 16 = none := by
  have h := C9_piecewise_domain c15w cbW cdW caW (by norm_num [c15w])
  exact ⟨h.1 10 (by norm_num [c15w]), h.2.1 16 (by norm_num [c15w])⟩

/-- Witness for C10 at a 15-sample curve: at the shared boundary index 9 the
During fit (value 2), not the After fit (value 3), is returned. -/
theorem C10_witness :
    piecewise_fit c15w cbW cdW caW ((c15w.length : ℚ) - 6)
      = some (polynomial_fit cdW ((c15w.length : ℚ) - 6)) :=
  C10_boundary_takes_during c15w cbW cdW caW (by norm_num [c15w])

end CombustionHeat
